import Mathlib

/-!
Shallow embedding of the firmware of the smart medicine dispenser
(`sketch.ino`): schedule table, scheduler, dispense sequencer,
wake/sleep handling in the main loop, the button interrupt handler,
EEPROM load validation and the interactive setup flow.

Machine integers of the source (`byte`, `unsigned long`, `int`) are
modelled as `Nat`/`Int`, with an explicit `% 2 ^ 32` where the C
unsigned subtraction in the debounce check can wrap, and an explicit
`% 256` where the `byte` accumulation in the setup flow can wrap.
-/

/-- `#define MAX_MEDICATIONS 5` -/
def MAX_MEDICATIONS : Nat := 5

/-- `#define SERVO_CLOSED_POS 0` -/
def SERVO_CLOSED_POS : Nat := 0

/-- `#define SERVO_OPEN_POS 90` -/
def SERVO_OPEN_POS : Nat := 90

/-- `#define DISPENSE_DELAY 1000` (the settle delay between servo operations, ms) -/
def DISPENSE_DELAY : Nat := 1000

/-- `#define BUZZER_DURATION 200` (ms) -/
def BUZZER_DURATION : Nat := 200

/-- `#define BUZZER_DISPENSE_BEEPS 3` -/
def BUZZER_DISPENSE_BEEPS : Nat := 3

/-- `#define BUTTON_WAKE_BLINKS 2` -/
def BUTTON_WAKE_BLINKS : Nat := 2

/-- `#define WATCHDOG_WAKE_BLINKS 1` -/
def WATCHDOG_WAKE_BLINKS : Nat := 1

/-- `#define DEBOUNCE_TIME 200` (ms) -/
def DEBOUNCE_TIME : Nat := 200

/-- `#define DISPLAY_MODES 2` -/
def DISPLAY_MODES : Nat := 2

/-- `struct Medication { bool active; byte hour; byte minute; bool dispensedToday; }` -/
structure Medication where
  active : Bool
  hour : Nat
  minute : Nat
  dispensedToday : Bool
  deriving DecidableEq

/-- The default entry written by `loadMedications` when a persisted record is
out of range: `{active:false, hour:0, minute:0, dispensedToday:false}`. -/
def defaultMedication : Medication :=
  { active := false, hour := 0, minute := 0, dispensedToday := false }

/-- `resetDailyDispensedFlags()`: sets `dispensedToday = false` on every entry
of the table (the global `medications` array is modelled as the input list). -/
def resetDailyDispensedFlags (meds : List Medication) : List Medication :=
  meds.map fun e => { e with dispensedToday := false }

/-- The per-entry due test inside the scan loops of `checkMedicationDue` and
`checkSchedule`: active, not dispensed today, and (hour, minute) equal to the
current (hour, minute). In the source the loop `continue`s on `!active` and on
`dispensedToday` and then compares the time, which is this conjunction. -/
def medicationDue (e : Medication) (h m : Nat) : Bool :=
  e.active && !e.dispensedToday && e.hour == h && e.minute == m

/-- The scan loop of `checkMedicationDue`: returns `true` at the first entry
that is due, `false` when the loop runs off the end of the table. -/
def anyMedicationDue (meds : List Medication) (h m : Nat) : Bool :=
  match meds with
  | [] => false
  | e :: rest => if medicationDue e h m then true else anyMedicationDue rest h m

/-- `checkMedicationDue()`: at (hour 0, minute 0) it calls
`resetDailyDispensedFlags` and returns `false` at once; otherwise it scans the
table for a due entry. The pair returns the boolean result together with the
table (which the midnight branch mutates). -/
def checkMedicationDue (meds : List Medication) (h m : Nat) : Bool × List Medication :=
  if h == 0 && m == 0 then (false, resetDailyDispensedFlags meds)
  else (anyMedicationDue meds h m, meds)

/-- The `for` loop of `checkSchedule()`, carrying the index `i` of the current
entry: each due entry triggers `dispense()` (recorded as its index, in the
order the loop runs) and is then marked `dispensedToday = true`. Returns the
updated table together with the list of dispensed indices. -/
def checkScheduleLoop : List Medication → Nat → Nat → Nat → List Medication × List Nat
  | [], _, _, _ => ([], [])
  | e :: rest, h, m, i =>
    let tail := checkScheduleLoop rest h m (i + 1)
    if medicationDue e h m then
      ({ e with dispensedToday := true } :: tail.1, i :: tail.2)
    else
      (e :: tail.1, tail.2)

/-- `checkSchedule()`: reads the clock once, resets all dispensed flags when
the time is (0, 0), then runs the dispensing scan over the whole table. -/
def checkSchedule (meds : List Medication) (h m : Nat) : List Medication × List Nat :=
  let meds0 := if h == 0 && m == 0 then resetDailyDispensedFlags meds else meds
  checkScheduleLoop meds0 h m 0

theorem medicationDue_iff (e : Medication) (h m : Nat) :
    medicationDue e h m = true ↔
      e.active = true ∧ e.dispensedToday = false ∧ e.hour = h ∧ e.minute = m := by
  simp [medicationDue, Bool.and_eq_true, and_assoc]

theorem anyMedicationDue_iff (meds : List Medication) (h m : Nat) :
    anyMedicationDue meds h m = true ↔ ∃ e ∈ meds, medicationDue e h m = true := by
  induction meds with
  | nil => simp [anyMedicationDue]
  | cons e rest ih =>
    by_cases hd : medicationDue e h m = true
    · simp [anyMedicationDue, hd]
    · simp only [anyMedicationDue, if_neg hd, ih, List.mem_cons]
      constructor
      · rintro ⟨f, hf, hfd⟩; exact ⟨f, Or.inr hf, hfd⟩
      · rintro ⟨f, hf | hf, hfd⟩
        · exact absurd (hf ▸ hfd) hd
        · exact ⟨f, hf, hfd⟩

/-- Claim C1: for every schedule table and current time, `checkMedicationDue`
returns `false` at the midnight reset minute (0, 0) regardless of the table,
and at every other time it returns `true` iff some entry with `active = true`
and `dispensedToday = false` has (hour, minute) exactly equal to the current
(hour, minute). -/
theorem checkMedicationDue_spec (meds : List Medication) (h m : Nat) :
    (¬(h = 0 ∧ m = 0) →
      ((checkMedicationDue meds h m).1 = true ↔
        ∃ e ∈ meds, e.active = true ∧ e.dispensedToday = false ∧ e.hour = h ∧ e.minute = m))
    ∧ ((h = 0 ∧ m = 0) → (checkMedicationDue meds h m).1 = false) := by
  constructor
  · intro hnot
    have hcond : (h == 0 && m == 0) = false := by
      rcases Nat.eq_zero_or_pos h with h0 | h0
      · rcases Nat.eq_zero_or_pos m with m0 | m0
        · exact absurd ⟨h0, m0⟩ hnot
        · simp [h0, Nat.pos_iff_ne_zero.mp m0]
      · simp [Nat.pos_iff_ne_zero.mp h0]
    simp only [checkMedicationDue, hcond, Bool.false_eq_true, if_false]
    rw [anyMedicationDue_iff]
    constructor
    · rintro ⟨e, he, hd⟩; exact ⟨e, he, (medicationDue_iff e h m).mp hd⟩
    · rintro ⟨e, he, hd⟩; exact ⟨e, he, (medicationDue_iff e h m).mpr hd⟩

  · rintro ⟨h0, m0⟩
    simp [checkMedicationDue, h0, m0]

theorem checkMedicationDue_spec_witness :
    (checkMedicationDue [⟨true, 8, 0, false⟩] 8 0).1 = true
    ∧ (checkMedicationDue [⟨true, 0, 0, false⟩] 0 0).1 = false := by
  constructor
  · exact ((checkMedicationDue_spec [⟨true, 8, 0, false⟩] 8 0).1 (by decide)).mpr
      ⟨⟨true, 8, 0, false⟩, by simp, rfl, rfl, rfl, rfl⟩
  · exact (checkMedicationDue_spec [⟨true, 0, 0, false⟩] 0 0).2 ⟨rfl, rfl⟩

theorem midnight_cond_false (h m : Nat) (hnot : ¬(h = 0 ∧ m = 0)) :
    (h == 0 && m == 0) = false := by
  rcases Nat.eq_zero_or_pos h with h0 | h0
  · rcases Nat.eq_zero_or_pos m with m0 | m0
    · exact absurd ⟨h0, m0⟩ hnot
    · simp [h0, Nat.pos_iff_ne_zero.mp m0]
  · simp [Nat.pos_iff_ne_zero.mp h0]

theorem checkScheduleLoop_length (meds : List Medication) (h m i : Nat) :
    (checkScheduleLoop meds h m i).1.length = meds.length := by
  induction meds generalizing i with
  | nil => rfl
  | cons e rest ih =>
    by_cases hd : medicationDue e h m = true
    · simp [checkScheduleLoop, hd, ih]
    · simp [checkScheduleLoop, hd, ih]

theorem checkScheduleLoop_getElem? (meds : List Medication) (h m i j : Nat) :
    (checkScheduleLoop meds h m i).1[j]? =
      (meds[j]?).map
        (fun e => if medicationDue e h m then { e with dispensedToday := true } else e) := by
  induction meds generalizing i j with
  | nil => simp [checkScheduleLoop]
  | cons e rest ih =>
    by_cases hd : medicationDue e h m = true
    · cases j with
      | zero => simp [checkScheduleLoop, hd]
      | succ k => simp [checkScheduleLoop, hd, ih]
    · cases j with
      | zero => simp [checkScheduleLoop, hd]
      | succ k => simp [checkScheduleLoop, hd, ih]

theorem checkScheduleLoop_mem (meds : List Medication) (h m i x : Nat) :
    x ∈ (checkScheduleLoop meds h m i).2 ↔
      ∃ j e, meds[j]? = some e ∧ x = i + j ∧ medicationDue e h m = true := by
  induction meds generalizing i with
  | nil => simp [checkScheduleLoop]
  | cons e rest ih =>
    by_cases hd : medicationDue e h m = true
    · simp only [checkScheduleLoop, if_pos hd, List.mem_cons, ih]
      constructor
      · rintro (rfl | ⟨j, f, hj, rfl, hf⟩)
        · exact ⟨0, e, by simp, by omega, hd⟩
        · exact ⟨j + 1, f, by simpa using hj, by omega, hf⟩
      · rintro ⟨j, f, hj, rfl, hf⟩
        cases j with
        | zero =>
          simp only [List.getElem?_cons_zero, Option.some.injEq] at hj
          subst hj
          exact Or.inl (by omega)
        | succ k =>
          exact Or.inr ⟨k, f, by simpa using hj, by omega, hf⟩
    · simp only [checkScheduleLoop, if_neg hd, ih]
      constructor
      · rintro ⟨j, f, hj, rfl, hf⟩
        exact ⟨j + 1, f, by simpa using hj, by omega, hf⟩
      · rintro ⟨j, f, hj, rfl, hf⟩
        cases j with
        | zero =>
          simp only [List.getElem?_cons_zero, Option.some.injEq] at hj
          subst hj
          exact absurd hf hd
        | succ k =>
          exact ⟨k, f, by simpa using hj, by omega, hf⟩

theorem checkScheduleLoop_lb (meds : List Medication) (h m i x : Nat)
    (hx : x ∈ (checkScheduleLoop meds h m i).2) : i ≤ x := by
  rcases (checkScheduleLoop_mem meds h m i x).mp hx with ⟨j, e, _, rfl, _⟩
  omega

theorem checkScheduleLoop_sorted (meds : List Medication) (h m i : Nat) :
    ((checkScheduleLoop meds h m i).2).Sorted (· < ·) := by
  induction meds generalizing i with
  | nil => simp [checkScheduleLoop]
  | cons e rest ih =>
    by_cases hd : medicationDue e h m = true
    · simp only [checkScheduleLoop, if_pos hd, List.sorted_cons]
      refine ⟨fun b hb => ?_, ih (i + 1)⟩
      have := checkScheduleLoop_lb rest h m (i + 1) b hb
      omega
    · simpa only [checkScheduleLoop, if_neg hd] using ih (i + 1)

/-- Claim C2: outside the midnight minute, one call to `checkSchedule` marks
`dispensedToday = true` on exactly the entries that are active, not yet
dispensed today, and whose (hour, minute) equals the current time, leaving
every other entry unchanged; the dispense events of that single call are
exactly the indices of those entries, in increasing (index) order. -/
theorem checkSchedule_dispenses_due (meds : List Medication) (h m : Nat)
    (hmid : ¬(h = 0 ∧ m = 0)) :
    (checkSchedule meds h m).1.length = meds.length
    ∧ (∀ (j : Nat) (e : Medication), meds[j]? = some e → medicationDue e h m = true →
        (checkSchedule meds h m).1[j]? = some { e with dispensedToday := true })
    ∧ (∀ (j : Nat) (e : Medication), meds[j]? = some e → medicationDue e h m = false →
        (checkSchedule meds h m).1[j]? = some e)
    ∧ (∀ x : Nat, x ∈ (checkSchedule meds h m).2 ↔
        ∃ e, meds[x]? = some e ∧ medicationDue e h m = true)
    ∧ ((checkSchedule meds h m).2).Sorted (· < ·) := by
  have hcond := midnight_cond_false h m hmid
  have hun : checkSchedule meds h m = checkScheduleLoop meds h m 0 := by
    simp [checkSchedule, hcond]
  refine ⟨?_, ?_, ?_, ?_, ?_⟩
  · rw [hun]; exact checkScheduleLoop_length meds h m 0
  · intro j e hj hd
    rw [hun, checkScheduleLoop_getElem?, hj]
    simp [hd]
  · intro j e hj hd
    rw [hun, checkScheduleLoop_getElem?, hj]
    simp [hd]
  · intro x
    rw [hun, checkScheduleLoop_mem]
    constructor
    · rintro ⟨j, e, hj, rfl, hd⟩
      exact ⟨e, by simpa using hj, hd⟩
    · rintro ⟨e, hx, hd⟩
      exact ⟨x, e, hx, by omega, hd⟩
  · rw [hun]; exact checkScheduleLoop_sorted meds h m 0

theorem checkSchedule_dispenses_due_witness :
    (checkSchedule [⟨true, 8, 0, false⟩, ⟨false, 0, 0, false⟩] 8 0).1[0]? =
      some ⟨true, 8, 0, true⟩
    ∧ (0 ∈ (checkSchedule [⟨true, 8, 0, false⟩, ⟨false, 0, 0, false⟩] 8 0).2) := by
  have h := checkSchedule_dispenses_due [⟨true, 8, 0, false⟩, ⟨false, 0, 0, false⟩] 8 0
    (by decide)
  refine ⟨h.2.1 0 ⟨true, 8, 0, false⟩ (by decide) (by decide), ?_⟩
  exact (h.2.2.2.1 0).mpr ⟨⟨true, 8, 0, false⟩, by decide, by decide⟩

/-- The per-entry computation of `getTimeToNextMedication`: `minutesDiff` for
one entry, as the source computes it with C `int` arithmetic (no overflow is
possible for byte-valued fields, so plain `Int` is faithful). -/
def nextDoseMinutes (e : Medication) (ch cm : Nat) : Int :=
  let medicationTotalMinutes : Int := (e.hour : Int) * 60 + (e.minute : Int)
  let currentTotalMinutes : Int := (ch : Int) * 60 + (cm : Int)
  if e.dispensedToday then
    medicationTotalMinutes + 24 * 60 - currentTotalMinutes
  else
    let d := medicationTotalMinutes - currentTotalMinutes
    if d < 0 then d + 24 * 60 else d

/-- The `for` loop of `getTimeToNextMedication`, carrying the accumulators
`minMinutes` (initialised to `24 * 60` by the caller) and `found`; an active
entry updates them only when its `minutesDiff` is strictly below the current
minimum. -/
def getTimeToNextMedicationLoop :
    List Medication → Nat → Nat → Int → Bool → Int × Bool
  | [], _, _, minMinutes, found => (minMinutes, found)
  | e :: rest, ch, cm, minMinutes, found =>
    if e.active then
      let d := nextDoseMinutes e ch cm
      if d < minMinutes then getTimeToNextMedicationLoop rest ch cm d true
      else getTimeToNextMedicationLoop rest ch cm minMinutes found
    else getTimeToNextMedicationLoop rest ch cm minMinutes found

/-- `getTimeToNextMedication(now, hoursToNext, minutesToNext)`: returns the
`found` flag together with the `hoursToNext`/`minutesToNext` out-parameters
(`minMinutes / 60`, `minMinutes % 60`). -/
def getTimeToNextMedication (meds : List Medication) (ch cm : Nat) :
    Bool × Int × Int :=
  let r := getTimeToNextMedicationLoop meds ch cm (24 * 60) false
  (r.2, r.1 / 60, r.1 % 60)

/-- Claim C3 (divergence exhibited): with one active entry whose next
occurrence is exactly `24 * 60` minutes away (already dispensed today, and its
time equals the current time), `getTimeToNextMedication` returns
`found = false` — the strict comparison `minutesDiff < minMinutes` never fires
against the initial value `24 * 60` — although the claim (and the function's
own documentation) require `found = true` whenever an active entry exists.
The second conjunct checks the claim's 23:50 / 00:10 scenario, which the code
does satisfy. -/
theorem getTimeToNextMedication_found_bug :
    getTimeToNextMedication [⟨true, 8, 0, true⟩] 8 0 = (false, 24, 0)
    ∧ getTimeToNextMedication [⟨true, 0, 10, false⟩] 23 50 = (true, 0, 20) := by
  constructor
  · rfl
  · rfl

/-- `loadMedications()`'s per-entry validation: a record read back with
`hour > 23 || minute > 59` is replaced field by field with the default entry;
otherwise the record is kept as read. -/
def validateMedication (e : Medication) : Medication :=
  if e.hour > 23 ∨ e.minute > 59 then defaultMedication else e

/-- `loadMedications()`: reads the five persisted records (the input list) and
validates each one in place. Total — no error is ever surfaced to the caller. -/
def loadMedications (raw : List Medication) : List Medication :=
  raw.map validateMedication

/-- Claim C6: after `loadMedications`, the table has the same length, every
out-of-range persisted record (hour > 23 or minute > 59) has been replaced by
the default entry `{active := false, hour := 0, minute := 0,
dispensedToday := false}`, every in-range record is kept exactly as read, and
every resulting entry satisfies `hour ≤ 23` and `minute ≤ 59`. -/
theorem loadMedications_validates (raw : List Medication) :
    (loadMedications raw).length = raw.length
    ∧ (∀ (j : Nat) (e : Medication), raw[j]? = some e → e.hour > 23 ∨ e.minute > 59 →
        (loadMedications raw)[j]? = some defaultMedication)
    ∧ (∀ (j : Nat) (e : Medication), raw[j]? = some e → e.hour ≤ 23 → e.minute ≤ 59 →
        (loadMedications raw)[j]? = some e)
    ∧ (∀ f ∈ loadMedications raw, f.hour ≤ 23 ∧ f.minute ≤ 59) := by
  refine ⟨by simp [loadMedications], ?_, ?_, ?_⟩
  · intro j e hj hbad
    simp [loadMedications, hj, validateMedication, if_pos hbad]
  · intro j e hj hh hm
    have hgood : ¬(e.hour > 23 ∨ e.minute > 59) := by omega
    simp [loadMedications, hj, validateMedication, if_neg hgood]
  · intro f hf
    rcases List.mem_map.mp hf with ⟨e, _, rfl⟩
    by_cases hbad : e.hour > 23 ∨ e.minute > 59
    · simp [validateMedication, if_pos hbad, defaultMedication]
    · simp only [validateMedication, if_neg hbad]
      omega

theorem loadMedications_validates_witness :
    (loadMedications [⟨true, 99, 0, true⟩, ⟨true, 8, 30, false⟩])[0]? =
      some defaultMedication
    ∧ (loadMedications [⟨true, 99, 0, true⟩, ⟨true, 8, 30, false⟩])[1]? =
      some ⟨true, 8, 30, false⟩ := by
  have h := loadMedications_validates [⟨true, 99, 0, true⟩, ⟨true, 8, 30, false⟩]
  exact ⟨h.2.1 0 ⟨true, 99, 0, true⟩ (by decide) (by decide),
    h.2.2.1 1 ⟨true, 8, 30, false⟩ (by decide) (by decide) (by decide)⟩

/-- Claim C7: the midnight reset is idempotent — one application sets
`dispensedToday = false` on every entry while preserving each entry's
`active`, `hour` and `minute`, and a second application yields exactly the
same table as the first. -/
theorem resetDailyDispensedFlags_idempotent (meds : List Medication) :
    resetDailyDispensedFlags (resetDailyDispensedFlags meds) =
      resetDailyDispensedFlags meds
    ∧ (∀ (j : Nat) (e : Medication), meds[j]? = some e →
        (resetDailyDispensedFlags meds)[j]? =
          some { active := e.active, hour := e.hour, minute := e.minute,
                 dispensedToday := false })
    ∧ (∀ f ∈ resetDailyDispensedFlags meds, f.dispensedToday = false) := by
  refine ⟨?_, ?_, ?_⟩
  · simp [resetDailyDispensedFlags, List.map_map]
  · intro j e hj
    simp [resetDailyDispensedFlags, hj]
  · intro f hf
    rcases List.mem_map.mp hf with ⟨e, _, rfl⟩
    rfl

theorem resetDailyDispensedFlags_idempotent_witness :
    (resetDailyDispensedFlags [⟨true, 8, 30, true⟩])[0]? =
      some ⟨true, 8, 30, false⟩ := by
  exact (resetDailyDispensedFlags_idempotent [⟨true, 8, 30, true⟩]).2.1 0
    ⟨true, 8, 30, true⟩ (by decide)

/-- Observable hardware events of the dispense path: a servo write on the top
or bottom gate (with the commanded position), a buzzer tone, and — for
stating non-interleaving — a schedule re-check marker that `dispense()` never
emits. -/
inductive DEvent where
  | gateTop (pos : Nat)
  | gateBottom (pos : Nat)
  | buzz
  | schedCheck
  deriving DecidableEq

/-- Is the event a gate actuation (a servo write)? -/
def DEvent.isGate : DEvent → Bool
  | .gateTop _ => true
  | .gateBottom _ => true
  | _ => false

/-- `beep(count)`: each iteration sounds the buzzer at the current instant and
then waits `BUZZER_DURATION`, with a further `BUZZER_DURATION` pause when more
beeps remain (`i < count - 1`). Returns the timestamped tone events and the
time at which the call returns. -/
def beepEvents : Nat → Nat → List (Nat × DEvent) × Nat
  | 0, t => ([], t)
  | n + 1, t =>
    let t1 := t + BUZZER_DURATION
    let t2 := if n > 0 then t1 + BUZZER_DURATION else t1
    let tail := beepEvents n t2
    ((t, DEvent.buzz) :: tail.1, tail.2)

/-- `dispense()`: the four servo writes — open top, (after `DISPENSE_DELAY`)
close top, (after `DISPENSE_DELAY`) open bottom, (after `DISPENSE_DELAY`)
close bottom — followed by `beep(BUZZER_DISPENSE_BEEPS)` and the final
`delay(2000)` before returning. Returns the timestamped event trace and the
return time, for a call starting at time `t`. -/
def dispenseEvents (t : Nat) : List (Nat × DEvent) × Nat :=
  let t1 := t + DISPENSE_DELAY
  let t2 := t1 + DISPENSE_DELAY
  let t3 := t2 + DISPENSE_DELAY
  let beeps := beepEvents BUZZER_DISPENSE_BEEPS t3
  ([(t, DEvent.gateTop SERVO_OPEN_POS),
    (t1, DEvent.gateTop SERVO_CLOSED_POS),
    (t2, DEvent.gateBottom SERVO_OPEN_POS),
    (t3, DEvent.gateBottom SERVO_CLOSED_POS)] ++ beeps.1,
   beeps.2 + 2000)

theorem dispenseEvents_eq (t : Nat) :
    (dispenseEvents t).1 =
      [(t, DEvent.gateTop SERVO_OPEN_POS),
       (t + 1000, DEvent.gateTop SERVO_CLOSED_POS),
       (t + 2000, DEvent.gateBottom SERVO_OPEN_POS),
       (t + 3000, DEvent.gateBottom SERVO_CLOSED_POS),
       (t + 3000, DEvent.buzz),
       (t + 3400, DEvent.buzz),
       (t + 3800, DEvent.buzz)] := by
  simp [dispenseEvents, beepEvents, DISPENSE_DELAY, BUZZER_DURATION,
    BUZZER_DISPENSE_BEEPS, SERVO_OPEN_POS, SERVO_CLOSED_POS]

/-- Claim C4: every invocation of `dispense` performs exactly the four gate
actuations open-upper, close-upper, open-lower, close-lower in that order,
with at least `DISPENSE_DELAY` (the settle delay) elapsing between consecutive
actuations; after the fourth actuation it emits exactly
`BUZZER_DISPENSE_BEEPS = 3` beeps, all at or after the fourth actuation; and
the trace contains no schedule re-check event interleaved anywhere. -/
theorem dispense_sequence_spec (t : Nat) :
    ((dispenseEvents t).1.filter (fun p => p.2.isGate)) =
      [(t, DEvent.gateTop SERVO_OPEN_POS),
       (t + DISPENSE_DELAY, DEvent.gateTop SERVO_CLOSED_POS),
       (t + 2 * DISPENSE_DELAY, DEvent.gateBottom SERVO_OPEN_POS),
       (t + 3 * DISPENSE_DELAY, DEvent.gateBottom SERVO_CLOSED_POS)]
    ∧ List.Chain' (fun p q : Nat × DEvent => p.1 + DISPENSE_DELAY ≤ q.1)
        ((dispenseEvents t).1.filter (fun p => p.2.isGate))
    ∧ ((dispenseEvents t).1.filter (fun p => p.2 = DEvent.buzz)).length =
        BUZZER_DISPENSE_BEEPS
    ∧ (∀ p ∈ (dispenseEvents t).1, p.2 = DEvent.buzz →
        t + 3 * DISPENSE_DELAY ≤ p.1)
    ∧ (∀ p ∈ (dispenseEvents t).1, p.2 ≠ DEvent.schedCheck) := by
  refine ⟨?_, ?_, ?_, ?_, ?_⟩
  · simp [dispenseEvents_eq, DEvent.isGate, DISPENSE_DELAY]
  · simp only [dispenseEvents_eq, DEvent.isGate, DISPENSE_DELAY]
    norm_num [List.chain'_cons, List.filter]
  · simp [dispenseEvents_eq, DEvent.isGate, BUZZER_DISPENSE_BEEPS, List.filter]
  · intro p hp hb
    simp only [dispenseEvents_eq, List.mem_cons, List.not_mem_nil, or_false] at hp
    rcases hp with rfl | rfl | rfl | rfl | rfl | rfl | rfl <;>
      simp_all [DISPENSE_DELAY]
  · intro p hp
    simp only [dispenseEvents_eq, List.mem_cons, List.not_mem_nil, or_false] at hp
    rcases hp with rfl | rfl | rfl | rfl | rfl | rfl | rfl <;> simp

theorem dispense_sequence_spec_witness :
    ((dispenseEvents 0).1.filter (fun p => p.2 = DEvent.buzz)).length =
      BUZZER_DISPENSE_BEEPS
    ∧ (∀ p ∈ (dispenseEvents 0).1, p.2 = DEvent.buzz → 3 * DISPENSE_DELAY ≤ p.1) := by
  have h := dispense_sequence_spec 0
  refine ⟨h.2.2.1, fun p hp hb => ?_⟩
  have := h.2.2.2.1 p hp hb
  omega

/-- The globals shared by the main loop and the interrupt handlers:
`buttonWakeFlag`, `watchdogWakeFlag`, `inSleepMode`, `displayMode`,
`lastButtonTime`, `lastActionTime`, `lastCheckTime` and the `medications`
table. -/
structure SysState where
  buttonWakeFlag : Bool
  watchdogWakeFlag : Bool
  inSleepMode : Bool
  displayMode : Nat
  lastButtonTime : Nat
  lastActionTime : Nat
  lastCheckTime : Nat
  meds : List Medication
  deriving DecidableEq

/-- Commands the wake-handling part of the loop issues to the display and the
wake LED. -/
inductive Cmd where
  | ledBlink (n : Nat)
  | backlightOn
  | displayOn
  | backlightOff
  | displayOff
  | printSystemActive
  deriving DecidableEq

/-- `enterSleepMode()`, modelled up to `sleep_cpu()` (the state in which the
device sleeps): both wake flags are cleared, the display backlight and panel
are switched off, and `inSleepMode` is set. -/
def enterSleepMode (s : SysState) : SysState × List Cmd :=
  ({ s with buttonWakeFlag := false, watchdogWakeFlag := false, inSleepMode := true },
   [Cmd.backlightOff, Cmd.displayOff])

/-- The two wake-handling blocks at the top of `loop()`, for one iteration
entered at millis `tMillis` with the clock reading (`h`, `m`).
Block 1 (`if (buttonWakeFlag)`) resets the activity timers, clears the flag,
blinks `BUTTON_WAKE_BLINKS`, turns the backlight and display on and shows the
wake feedback. Block 2 (`if (watchdogWakeFlag && !buttonWakeFlag)` — reading
`buttonWakeFlag` after block 1 may have cleared it) clears the watchdog flag,
blinks `WATCHDOG_WAKE_BLINKS`, and either turns the display on and resets the
timers (dose due) or calls `enterSleepMode()` and returns from `loop()`.
Returns the new state, the issued commands in order, and whether the
iteration returned early (re-entered sleep). -/
def loopWakePhase (s : SysState) (tMillis h m : Nat) : SysState × List Cmd × Bool :=
  let s1 := if s.buttonWakeFlag then
      { s with lastActionTime := tMillis, buttonWakeFlag := false,
               lastCheckTime := tMillis }
    else s
  let c1 := if s.buttonWakeFlag then
      [Cmd.ledBlink BUTTON_WAKE_BLINKS, Cmd.backlightOn, Cmd.displayOn,
       Cmd.printSystemActive]
    else []
  if s1.watchdogWakeFlag && !s1.buttonWakeFlag then
    let s2 := { s1 with watchdogWakeFlag := false }
    let due := checkMedicationDue s2.meds h m
    let s3 := { s2 with meds := due.2 }
    if due.1 then
      ({ s3 with lastActionTime := tMillis, lastCheckTime := tMillis },
       c1 ++ [Cmd.ledBlink WATCHDOG_WAKE_BLINKS, Cmd.backlightOn, Cmd.displayOn],
       false)
    else
      let slept := enterSleepMode s3
      (slept.1, c1 ++ [Cmd.ledBlink WATCHDOG_WAKE_BLINKS] ++ slept.2, true)
  else
    (s1, c1, false)

/-- Claim C5: when a loop iteration is entered with only the watchdog wake
flag latched (`buttonWakeFlag = false`, `watchdogWakeFlag = true`) and no dose
is due, the iteration returns early with the device back in sleep mode and
never issues a display power-on or backlight-on command; and in this
watchdog-wake path the display is turned on only when a dose is due. -/
theorem watchdogWake_noDue_sleeps_dark (s : SysState) (tMillis h m : Nat)
    (hb : s.buttonWakeFlag = false) (hw : s.watchdogWakeFlag = true) :
    ((checkMedicationDue s.meds h m).1 = false →
      (loopWakePhase s tMillis h m).2.2 = true
      ∧ (loopWakePhase s tMillis h m).1.inSleepMode = true
      ∧ Cmd.backlightOn ∉ (loopWakePhase s tMillis h m).2.1
      ∧ Cmd.displayOn ∉ (loopWakePhase s tMillis h m).2.1)
    ∧ (Cmd.backlightOn ∈ (loopWakePhase s tMillis h m).2.1 →
        (checkMedicationDue s.meds h m).1 = true) := by
  constructor
  · intro hdue
    simp [loopWakePhase, hb, hw, hdue, enterSleepMode]
  · intro hmem
    by_cases hdue : (checkMedicationDue s.meds h m).1 = true
    · exact hdue
    · exfalso
      simp [loopWakePhase, hb, hw, Bool.eq_false_iff.mpr hdue, enterSleepMode,
        eq_false_of_ne_true hdue] at hmem

theorem watchdogWake_noDue_sleeps_dark_witness :
    (loopWakePhase ⟨false, true, false, 0, 0, 0, 0, [⟨true, 8, 0, false⟩]⟩
        5000 10 30).2.2 = true
    ∧ (loopWakePhase ⟨false, true, false, 0, 0, 0, 0, [⟨true, 8, 0, false⟩]⟩
        5000 10 30).1.inSleepMode = true := by
  have h := (watchdogWake_noDue_sleeps_dark
    ⟨false, true, false, 0, 0, 0, 0, [⟨true, 8, 0, false⟩]⟩ 5000 10 30
    rfl rfl).1 (by decide)
  exact ⟨h.1, h.2.1⟩

/-- Claim C8 (divergence exhibited): when both wake flags are latched on
entry to a loop iteration and no dose is due, block 1 clears `buttonWakeFlag`
before block 2's guard `watchdogWakeFlag && !buttonWakeFlag` reads it, so the
guard is satisfied and the pending periodic-wake event is also processed: the
iteration performs the button-wake handling (backlight on) and then
`enterSleepMode()` runs and the iteration returns early with the device back
in SLEEPING — contrary to the claim that the pending periodic event cannot
send the device back to sleep in that iteration. -/
theorem bothWakeFlags_reenter_sleep :
    (loopWakePhase ⟨true, true, false, 0, 0, 0, 0, List.replicate 5 defaultMedication⟩
        5000 10 30).2.1 =
      [Cmd.ledBlink BUTTON_WAKE_BLINKS, Cmd.backlightOn, Cmd.displayOn,
       Cmd.printSystemActive, Cmd.ledBlink WATCHDOG_WAKE_BLINKS,
       Cmd.backlightOff, Cmd.displayOff]
    ∧ (loopWakePhase ⟨true, true, false, 0, 0, 0, 0, List.replicate 5 defaultMedication⟩
        5000 10 30).2.2 = true
    ∧ (loopWakePhase ⟨true, true, false, 0, 0, 0, 0, List.replicate 5 defaultMedication⟩
        5000 10 30).1.inSleepMode = true := by
  refine ⟨?_, rfl, rfl⟩
  rfl

/-- `ISR(INT0_vect)`: with `millis()` returning `currentTime`, the handler is
a no-op unless `currentTime - lastButtonTime >= DEBOUNCE_TIME` (C `unsigned
long` subtraction, modelled modulo `2 ^ 32`); an accepted press sets the wake
flag when sleeping, otherwise toggles the display mode and resets the
activity timer, and in both cases records `lastButtonTime = currentTime`. -/
def isrINT0 (s : SysState) (currentTime : Nat) : SysState :=
  if (2 ^ 32 + currentTime - s.lastButtonTime) % 2 ^ 32 ≥ DEBOUNCE_TIME then
    if s.inSleepMode then
      { s with buttonWakeFlag := true, lastButtonTime := currentTime }
    else
      { s with displayMode := (s.displayMode + 1) % DISPLAY_MODES,
               lastActionTime := currentTime, lastButtonTime := currentTime }
  else s

theorem isrINT0_rejected (s : SysState) (t : Nat)
    (hle : s.lastButtonTime ≤ t) (hwin : t - s.lastButtonTime < DEBOUNCE_TIME) :
    isrINT0 s t = s := by
  have hmod : (2 ^ 32 + t - s.lastButtonTime) % 2 ^ 32 = t - s.lastButtonTime := by
    have h32 : (2 : Nat) ^ 32 = 4294967296 := by norm_num
    rw [h32] at *
    simp only [DEBOUNCE_TIME] at hwin
    omega
  rw [isrINT0, if_neg]
  rw [hmod]
  simp only [DEBOUNCE_TIME] at *
  omega

theorem isrINT0_accepted_lastButtonTime (s : SysState) (t : Nat)
    (hacc : (2 ^ 32 + t - s.lastButtonTime) % 2 ^ 32 ≥ DEBOUNCE_TIME) :
    (isrINT0 s t).lastButtonTime = t := by
  rw [isrINT0, if_pos hacc]
  by_cases hs : s.inSleepMode = true
  · simp [hs]
  · simp [eq_false_of_ne_true hs]

/-- Claim C9: a button interrupt arriving within the debounce window
(`DEBOUNCE_TIME = 200` ms) of the previously accepted press leaves the entire
state unchanged — no wake flag, no display-mode toggle, no timestamp update;
in particular, after an accepted press at `t1`, a second interrupt 50 ms
later has no effect at all. -/
theorem isrINT0_debounce (s : SysState) (t t1 : Nat) :
    (s.lastButtonTime ≤ t → t - s.lastButtonTime < DEBOUNCE_TIME →
      isrINT0 s t = s)
    ∧ ((2 ^ 32 + t1 - s.lastButtonTime) % 2 ^ 32 ≥ DEBOUNCE_TIME →
      isrINT0 (isrINT0 s t1) (t1 + 50) = isrINT0 s t1) := by
  refine ⟨isrINT0_rejected s t, fun hacc => ?_⟩
  have hlbt := isrINT0_accepted_lastButtonTime s t1 hacc
  refine isrINT0_rejected (isrINT0 s t1) (t1 + 50) ?_ ?_
  · rw [hlbt]; omega
  · rw [hlbt]; simp only [DEBOUNCE_TIME]; omega

theorem isrINT0_debounce_witness :
    isrINT0 ⟨false, false, true, 0, 1000, 0, 0, []⟩ 1100 =
      ⟨false, false, true, 0, 1000, 0, 0, []⟩
    ∧ isrINT0 (isrINT0 ⟨false, false, true, 0, 1000, 0, 0, []⟩ 1300) 1350 =
      isrINT0 ⟨false, false, true, 0, 1000, 0, 0, []⟩ 1300 := by
  exact ⟨(isrINT0_debounce ⟨false, false, true, 0, 1000, 0, 0, []⟩ 1100 0).1
      (by norm_num) (by norm_num [DEBOUNCE_TIME]),
    (isrINT0_debounce ⟨false, false, true, 0, 1000, 0, 0, []⟩ 0 1300).2
      (by norm_num [DEBOUNCE_TIME])⟩

/-- Outcome of one of the blocking keypad loops in `setMedicationTime`: the
loop finished with a value and the remaining key stream, the user cancelled
with 'D', or the key stream ran out while the loop was still waiting. -/
inductive KeyResult (α : Type) where
  | done (a : α) (rest : List Char)
  | cancel (rest : List Char)
  | pending
  deriving DecidableEq

/-- The first `while` loop of `setMedicationTime`: wait for '1' or '0' (the
active prompt), with 'D' cancelling; every other key is ignored. -/
def readActiveKey : List Char → KeyResult Bool
  | [] => KeyResult.pending
  | k :: rest =>
    if k = '1' ∨ k = '0' then KeyResult.done (k = '1') rest
    else if k = 'D' then KeyResult.cancel rest
    else readActiveKey rest

/-- The hour and minute entry loops of `setMedicationTime` (with `maxVal` 23
resp. 59): a digit is appended to the `byte` accumulator (`acc * 10 + digit`,
wrapping modulo 256, except that a zero accumulator is simply replaced) and
the result clamped to `maxVal`; '#' confirms, '*' clears the accumulator, 'D'
cancels, and every other key is ignored. -/
def readTimeValue (maxVal : Nat) : Nat → List Char → KeyResult Nat
  | _, [] => KeyResult.pending
  | acc, k :: rest =>
    if '0' ≤ k ∧ k ≤ '9' then
      let digit := k.toNat - '0'.toNat
      let acc1 := if acc = 0 then digit else (acc * 10 + digit) % 256
      let acc2 := if acc1 > maxVal then maxVal else acc1
      readTimeValue maxVal acc2 rest
    else if k = '#' then KeyResult.done acc rest
    else if k = '*' then readTimeValue maxVal 0 rest
    else if k = 'D' then KeyResult.cancel rest
    else readTimeValue maxVal acc rest

/-- `setMedicationTime(index)`, driven by the key stream `keys`. The slot's
`active` flag is assigned as soon as the active prompt is answered; answering
'0' shows "Deactivated" and returns with only that assignment done. The hour
is assigned once its loop confirms, then the minute, and a completed entry
finally sets `dispensedToday = false`. Cancelling with 'D' returns with the
assignments made so far; `none` models a key stream that ran out inside a
blocking loop. -/
def setMedicationTime (meds : List Medication) (index : Nat) (keys : List Char) :
    Option (List Medication) :=
  let m0 := meds.getD index defaultMedication
  match readActiveKey keys with
  | KeyResult.pending => none
  | KeyResult.cancel _ => some meds
  | KeyResult.done false _ => some (meds.set index { m0 with active := false })
  | KeyResult.done true keys1 =>
      match readTimeValue 23 0 keys1 with
      | KeyResult.pending => none
      | KeyResult.cancel _ => some (meds.set index { m0 with active := true })
      | KeyResult.done hourVal keys2 =>
        let m1 := { m0 with active := true, hour := hourVal }
        match readTimeValue 59 0 keys2 with
        | KeyResult.pending => none
        | KeyResult.cancel _ => some (meds.set index m1)
        | KeyResult.done minuteVal _ =>
          some (meds.set index
            { m1 with minute := minuteVal, dispensedToday := false })

/-- Claim C10: whenever `setMedicationTime` for slot `index` returns a table,
only slot `index` differs from the input (same length, all other slots kept
verbatim); answering '0' to the active prompt changes only that slot's
`active` flag, preserving its hour, minute and `dispensedToday`; and a fully
completed entry ('1', then a confirmed hour and a confirmed minute) leaves
slot `index` with the entered time and `dispensedToday = false`. -/
theorem setMedicationTime_frame (meds : List Medication) (index : Nat)
    (keys : List Char) (out : List Medication) (hi : index < meds.length)
    (hout : setMedicationTime meds index keys = some out) :
    (out.length = meds.length ∧ ∀ j : Nat, j ≠ index → out[j]? = meds[j]?)
    ∧ (∀ rest : List Char, readActiveKey keys = KeyResult.done false rest →
        out = meds.set index
          { meds.getD index defaultMedication with active := false })
    ∧ (∀ (k1 k2 k3 : List Char) (hv mv : Nat),
        readActiveKey keys = KeyResult.done true k1 →
        readTimeValue 23 0 k1 = KeyResult.done hv k2 →
        readTimeValue 59 0 k2 = KeyResult.done mv k3 →
        out[index]? = some { active := true, hour := hv, minute := mv,
                             dispensedToday := false }) := by
  have hset : ∀ e : Medication, (meds.set index e).length = meds.length ∧
      ∀ j : Nat, j ≠ index → (meds.set index e)[j]? = meds[j]? := by
    intro e
    refine ⟨List.length_set meds index e, fun j hj => ?_⟩
    exact List.getElem?_set_ne fun hij => hj hij.symm
  unfold setMedicationTime at hout
  cases hra : readActiveKey keys with
  | pending => rw [hra] at hout; exact absurd hout (by simp)
  | cancel rest =>
    rw [hra] at hout
    simp only [Option.some.injEq] at hout
    subst hout
    refine ⟨⟨rfl, fun j _ => rfl⟩, fun rest' hr => ?_,
      fun k1 k2 k3 hv mv hr1 hr2 hr3 => ?_⟩
    · exact absurd hr (by simp)
    · exact absurd hr1 (by simp)
  | done a keys1 =>
    rw [hra] at hout
    cases a with
    | false =>
      simp only [Option.some.injEq] at hout
      subst hout
      refine ⟨hset _, fun rest' hr => rfl, fun k1 k2 k3 hv mv hr1 hr2 hr3 => ?_⟩
      exact absurd (KeyResult.done.inj hr1).1 (by simp)
    | true =>
      dsimp only at hout
      cases hrh : readTimeValue 23 0 keys1 with
      | pending => rw [hrh] at hout; exact absurd hout (by simp)
      | cancel rest =>
        rw [hrh] at hout
        simp only [Option.some.injEq] at hout
        subst hout
        refine ⟨hset _, fun rest' hr => ?_, fun k1 k2 k3 hv mv hr1 hr2 hr3 => ?_⟩
        · exact absurd (KeyResult.done.inj hr).1 (by simp)
        · obtain ⟨-, hk1⟩ := KeyResult.done.inj hr1
          subst hk1
          rw [hrh] at hr2
          exact absurd hr2 (by simp)
      | done hourVal keys2 =>
        rw [hrh] at hout
        dsimp only at hout
        cases hrm : readTimeValue 59 0 keys2 with
        | pending => rw [hrm] at hout; exact absurd hout (by simp)
        | cancel rest =>
          rw [hrm] at hout
          simp only [Option.some.injEq] at hout
          subst hout
          refine ⟨hset _, fun rest' hr => ?_, fun k1 k2 k3 hv mv hr1 hr2 hr3 => ?_⟩
          · exact absurd (KeyResult.done.inj hr).1 (by simp)
          · obtain ⟨-, hk1⟩ := KeyResult.done.inj hr1
            subst hk1
            rw [hrh] at hr2
            obtain ⟨hhv, hk2⟩ := KeyResult.done.inj hr2
            subst hk2
            rw [hrm] at hr3
            exact absurd hr3 (by simp)
        | done minuteVal keys3 =>
          rw [hrm] at hout
          simp only [Option.some.injEq] at hout
          subst hout
          refine ⟨hset _, fun rest' hr => ?_, fun k1 k2 k3 hv mv hr1 hr2 hr3 => ?_⟩
          · exact absurd (KeyResult.done.inj hr).1 (by simp)
          · obtain ⟨-, hk1⟩ := KeyResult.done.inj hr1
            subst hk1
            rw [hrh] at hr2
            obtain ⟨hhv, hk2⟩ := KeyResult.done.inj hr2
            subst hhv
            subst hk2
            rw [hrm] at hr3
            obtain ⟨hmv, -⟩ := KeyResult.done.inj hr3
            subst hmv
            rw [List.getElem?_set_self (by simpa using hi)]

theorem setMedicationTime_frame_witness :
    ([⟨true, 8, 30, false⟩, ⟨false, 3, 4, true⟩] : List Medication)[1]? =
      ([⟨true, 9, 15, true⟩, ⟨false, 3, 4, true⟩] : List Medication)[1]?
    ∧ ([⟨true, 8, 30, false⟩, ⟨false, 3, 4, true⟩] : List Medication)[0]? =
      some ⟨true, 8, 30, false⟩ := by
  have h := setMedicationTime_frame [⟨true, 9, 15, true⟩, ⟨false, 3, 4, true⟩] 0
    ['1', '8', '#', '3', '0', '#'] [⟨true, 8, 30, false⟩, ⟨false, 3, 4, true⟩]
    (by decide) (by decide)
  exact ⟨h.1.2 1 (by decide),
    h.2.2 ['8', '#', '3', '0', '#'] ['3', '0', '#'] [] 8 30 rfl rfl rfl⟩
